import Mathlib

/-!
Verification development for the azimrizan/jira-connect-app repository
(an Atlassian Jira Connect add-on, `src/app.js`).

The server code is shallowly embedded: JSON values are the inductive `Json`;
`JSON.parse` / `JSON.stringify(·, null, 2)` are modelled by an executable
character-list JSON reader and writer; the Markdown code-fence stripping of the
`POST /enhance-description` handler is modelled by an executable rendering of the
JavaScript global-regex replacements; the route handlers become pure functions
from their inputs (environment, parsed request body, upstream responses) to the
HTTP response they send.  Numbers are modelled as integers (the app never
produces fractional JSON numbers) and the JavaScript whitespace classes used by
`trim` and the regex `\s` are modelled by the JSON whitespace set, which agrees
with them on every character a valid JSON document can expose at a boundary.
-/

/-- A JSON value, as produced by `JSON.parse` and consumed by `JSON.stringify`. -/
inductive Json where
  | null
  | bool (b : Bool)
  | num (n : Int)
  | str (s : String)
  | arr (elems : List Json)
  | obj (fields : List (String × Json))

/-- The backtick character (written by code to avoid a literal backtick). -/
def btick : Char := Char.ofNat 96

/-- The opening curly-brace character. -/
def obrace : Char := Char.ofNat 123

/-- The closing curly-brace character. -/
def cbrace : Char := Char.ofNat 125

/-- Whitespace as in the JSON grammar: space, tab, line feed, carriage return. -/
def wsChar (c : Char) : Bool :=
  c = ' ' || c = '\t' || c = '\n' || c = '\r'

/-- Drop leading whitespace. -/
def skipWs (l : List Char) : List Char := l.dropWhile wsChar

/-- Drop trailing whitespace. -/
def rdropWs (l : List Char) : List Char := (l.reverse.dropWhile wsChar).reverse

/-- Model of JavaScript `String.prototype.trim`. -/
def trimWs (l : List Char) : List Char := rdropWs (skipWs l)

/-- Decimal digits of a natural number, fuel-based so it reduces by `rfl`. -/
def natReprAux : Nat → Nat → List Char → List Char
  | 0, _, acc => acc
  | f + 1, n, acc =>
    let d := Char.ofNat (48 + n % 10)
    if n < 10 then d :: acc else natReprAux f (n / 10) (d :: acc)

/-- Decimal rendering of a natural number. -/
def natRepr (n : Nat) : String := String.mk (natReprAux (n + 1) n [])

/-- Decimal rendering of an integer (JavaScript number-to-string on integers). -/
def intRepr (i : Int) : String :=
  if i < 0 then "-" ++ natRepr i.natAbs else natRepr i.natAbs

/-- Literal matcher: if `pat` is an initial run of the input, return the rest. -/
def matchLit : List Char → List Char → Option (List Char)
  | [], s => some s
  | _ :: _, [] => none
  | p :: ps, c :: cs => if c = p then matchLit ps cs else none

/-- The characters of the fence marker with a json info string. -/
def fenceJson : List Char := [btick, btick, btick, 'j', 's', 'o', 'n']

/-- The characters of the bare fence marker. -/
def fencePlain : List Char := [btick, btick, btick]

/-- One pass of the JavaScript global replacement of a fence marker followed by
`\s*` with the empty string: scan left to right, and at each match drop the
marker together with the greedy whitespace run after it, continuing the scan past
the match, exactly as `String.prototype.replace` with a `/g` regex.  Fuel-based so
it reduces by `rfl`; fuel `= length` always suffices. -/
def replaceFenceAux (pat : List Char) : Nat → List Char → List Char
  | 0, s => s
  | _ + 1, [] => []
  | f + 1, c :: cs =>
    match matchLit pat (c :: cs) with
    | some tail => replaceFenceAux pat f (tail.dropWhile wsChar)
    | none => c :: replaceFenceAux pat f cs

/-- Global replacement of a fence marker and trailing whitespace, as in
`cleanedText.replace(/<fence>\s*/g, '')`. -/
def replaceFence (pat l : List Char) : List Char := replaceFenceAux pat l.length l

/-- The fence-stripping normalisation of `POST /enhance-description`
(src/app.js lines 157-162): trim, then if the text starts with a json fence
globally delete json fences and then bare fences, else if it starts with a bare
fence globally delete bare fences. -/
def stripFenceL (l : List Char) : List Char :=
  let t := trimWs l
  if (matchLit fenceJson t).isSome then
    replaceFence fencePlain (replaceFence fenceJson t)
  else if (matchLit fencePlain t).isSome then
    replaceFence fencePlain t
  else t

/-- String-level wrapper of `stripFenceL`. -/
def stripFence (s : String) : String := String.mk (stripFenceL s.data)

/-- No run of the input, at any start position, begins with the pattern. -/
def noMatchB (pat l : List Char) : Bool :=
  l.tails.all (fun u => (matchLit pat u).isNone)

/-- A candidate text wrapped in a Markdown code fence with a json info string. -/
def wrapJsonFence (t : String) : String := "```json\n" ++ t ++ "\n```"

/-- A candidate text wrapped in a bare Markdown code fence. -/
def wrapPlainFence (t : String) : String := "```\n" ++ t ++ "\n```"

/-- Characters on which the JSON value reader dispatches to an accepting branch. -/
def goodStart (c : Char) : Bool :=
  c = obrace || c = '[' || c = '"' || c = 't' || c = 'f' || c = 'n' || c = '-' || c.isDigit

/-- Failure of the modelled `JSON.parse`.  The `remaining` argument records how
many characters were left at the failure point, from which the reported position
is computed. -/
inductive JsParseErr where
  | fuel
  | unexpectedEnd
  | unexpectedToken (c : Char) (remaining : Nat)
  | unterminatedString (remaining : Nat)
  | badControl (remaining : Nat)
  | badEscape (remaining : Nat)
deriving DecidableEq

/-- JSON string escapes. -/
def escMap (c : Char) : Option Char :=
  if c = '"' then some '"'
  else if c = '\\' then some '\\'
  else if c = '/' then some '/'
  else if c = 'b' then some (Char.ofNat 8)
  else if c = 'f' then some (Char.ofNat 12)
  else if c = 'n' then some '\n'
  else if c = 'r' then some '\r'
  else if c = 't' then some '\t'
  else none

/-- Hexadecimal digit value. -/
def hexVal (c : Char) : Option Nat :=
  if '0' ≤ c ∧ c ≤ '9' then some (c.toNat - 48)
  else if 'a' ≤ c ∧ c ≤ 'f' then some (c.toNat - 87)
  else if 'A' ≤ c ∧ c ≤ 'F' then some (c.toNat - 55)
  else none

/-- JSON string body reader (after the opening quote). -/
def parseStr (acc : List Char) : List Char → Except JsParseErr (String × List Char)
  | [] => .error (.unterminatedString 0)
  | c :: rest =>
    if c = '"' then .ok (String.mk acc.reverse, rest)
    else if c = '\\' then
      match rest with
      | [] => .error (.unterminatedString 0)
      | e :: rest2 =>
        match escMap e with
        | some d => parseStr (d :: acc) rest2
        | none =>
          if e = 'u' then
            match rest2 with
            | h1 :: h2 :: h3 :: h4 :: rest3 =>
              match hexVal h1, hexVal h2, hexVal h3, hexVal h4 with
              | some a, some b, some c2, some d2 =>
                  parseStr (Char.ofNat (((a * 16 + b) * 16 + c2) * 16 + d2) :: acc) rest3
              | _, _, _, _ => .error (.badEscape rest2.length)
            | _ => .error .unexpectedEnd
          else .error (.badEscape (rest2.length + 1))
    else if c.toNat < 32 then .error (.badControl (rest.length + 1))
    else parseStr (c :: acc) rest

/-- Numeric value of a run of decimal digits. -/
def digitsVal (l : List Char) : Nat :=
  l.foldl (fun a c => a * 10 + (c.toNat - 48)) 0

mutual

/-- JSON value reader.  The head of the input is the first significant
character (callers skip whitespace); the unconsumed rest is returned. -/
def parseValCore : Nat → List Char → Except JsParseErr (Json × List Char)
  | 0, _ => .error .fuel
  | _ + 1, [] => .error .unexpectedEnd
  | f + 1, c :: rest =>
    if c = obrace then
      match skipWs rest with
      | [] => .error .unexpectedEnd
      | c2 :: r2 => if c2 = cbrace then .ok (.obj [], r2) else parseMembers f (c2 :: r2) []
    else if c = '[' then
      match skipWs rest with
      | [] => .error .unexpectedEnd
      | c2 :: r2 => if c2 = ']' then .ok (.arr [], r2) else parseElems f (c2 :: r2) []
    else if c = '"' then
      match parseStr [] rest with
      | .error e => .error e
      | .ok (s, r1) => .ok (.str s, r1)
    else if c = 't' then
      match matchLit ['t', 'r', 'u', 'e'] (c :: rest) with
      | some r1 => .ok (.bool true, r1)
      | none => .error (.unexpectedToken c (rest.length + 1))
    else if c = 'f' then
      match matchLit ['f', 'a', 'l', 's', 'e'] (c :: rest) with
      | some r1 => .ok (.bool false, r1)
      | none => .error (.unexpectedToken c (rest.length + 1))
    else if c = 'n' then
      match matchLit ['n', 'u', 'l', 'l'] (c :: rest) with
      | some r1 => .ok (.null, r1)
      | none => .error (.unexpectedToken c (rest.length + 1))
    else if c = '-' then
      match rest.takeWhile Char.isDigit with
      | [] => .error (.unexpectedToken c (rest.length + 1))
      | ds => .ok (.num (-(Int.ofNat (digitsVal ds))), rest.dropWhile Char.isDigit)
    else if c.isDigit then
      .ok (.num (Int.ofNat (digitsVal ((c :: rest).takeWhile Char.isDigit))),
           (c :: rest).dropWhile Char.isDigit)
    else .error (.unexpectedToken c (rest.length + 1))

/-- Object member loop (after the opening brace, at a nonempty member list). -/
def parseMembers : Nat → List Char → List (String × Json) →
    Except JsParseErr (Json × List Char)
  | 0, _, _ => .error .fuel
  | f + 1, l, acc =>
    match skipWs l with
    | [] => .error .unexpectedEnd
    | c :: rest =>
      if c = '"' then
        match parseStr [] rest with
        | .error e => .error e
        | .ok (key, r1) =>
          match skipWs r1 with
          | [] => .error .unexpectedEnd
          | c2 :: r2 =>
            if c2 = ':' then
              match parseValCore f (skipWs r2) with
              | .error e => .error e
              | .ok (v, r3) =>
                match skipWs r3 with
                | [] => .error .unexpectedEnd
                | c3 :: r4 =>
                  if c3 = ',' then parseMembers f r4 (acc ++ [(key, v)])
                  else if c3 = cbrace then .ok (.obj (acc ++ [(key, v)]), r4)
                  else .error (.unexpectedToken c3 (r4.length + 1))
            else .error (.unexpectedToken c2 (r2.length + 1))
      else .error (.unexpectedToken c (rest.length + 1))

/-- Array element loop (after the opening bracket, at a nonempty element list). -/
def parseElems : Nat → List Char → List Json → Except JsParseErr (Json × List Char)
  | 0, _, _ => .error .fuel
  | f + 1, l, acc =>
    match parseValCore f (skipWs l) with
    | .error e => .error e
    | .ok (v, r1) =>
      match skipWs r1 with
      | [] => .error .unexpectedEnd
      | c :: r2 =>
        if c = ',' then parseElems f r2 (acc ++ [v])
        else if c = ']' then .ok (.arr (acc ++ [v]), r2)
        else .error (.unexpectedToken c (r2.length + 1))

end

/-- Model of `JSON.parse` on a character list: surrounding whitespace is
discarded, then exactly one value must fill the input. -/
def parseJsonL (l : List Char) : Except JsParseErr Json :=
  let t := trimWs l
  match parseValCore (t.length + 1) t with
  | .error e => .error e
  | .ok (v, rest) =>
    match rest with
    | [] => .ok v
    | c :: r => .error (.unexpectedToken c (r.length + 1))

/-- Model of `JSON.parse` on a string. -/
def parseJson (s : String) : Except JsParseErr Json := parseJsonL s.data

/-- The `message` of the thrown `SyntaxError`, rendered from the failure and the
length of the text handed to `JSON.parse`. -/
def renderParseErr (total : Nat) : JsParseErr → String
  | .fuel => "Maximum JSON nesting depth exceeded"
  | .unexpectedEnd => "Unexpected end of JSON input"
  | .unexpectedToken c rem =>
      "Unexpected token " ++ String.mk [c] ++ " in JSON at position " ++ natRepr (total - rem)
  | .unterminatedString rem =>
      "Unterminated string in JSON at position " ++ natRepr (total - rem)
  | .badControl rem =>
      "Bad control character in string literal in JSON at position " ++ natRepr (total - rem)
  | .badEscape rem =>
      "Bad escaped character in JSON at position " ++ natRepr (total - rem)

mutual

/-- A size measure on JSON values, used as recursion fuel by the writers. -/
def Json.weight : Json → Nat
  | .null => 1
  | .bool _ => 1
  | .num _ => 1
  | .str _ => 1
  | .arr xs => Json.weightList xs + 1
  | .obj fs => Json.weightFields fs + 1

/-- Size measure of an element list. -/
def Json.weightList : List Json → Nat
  | [] => 1
  | x :: xs => Json.weight x + Json.weightList xs + 1

/-- Size measure of a field list. -/
def Json.weightFields : List (String × Json) → Nat
  | [] => 1
  | (_, v) :: fs => Json.weight v + Json.weightFields fs + 1

end

/-- One hexadecimal digit (lowercase). -/
def hexDigit (n : Nat) : Char :=
  if n < 10 then Char.ofNat (48 + n) else Char.ofNat (87 + n)

/-- JSON escape of one character, as `JSON.stringify` writes string contents. -/
def escapeJsonChar (c : Char) : List Char :=
  if c = '"' then ['\\', '"']
  else if c = '\\' then ['\\', '\\']
  else if c = '\n' then ['\\', 'n']
  else if c = '\r' then ['\\', 'r']
  else if c = '\t' then ['\\', 't']
  else if c = Char.ofNat 8 then ['\\', 'b']
  else if c = Char.ofNat 12 then ['\\', 'f']
  else if c.toNat < 32 then
    ['\\', 'u', '0', '0', hexDigit (c.toNat / 16), hexDigit (c.toNat % 16)]
  else [c]

/-- Quoted JSON string literal. -/
def quoteJson (s : String) : String :=
  String.mk ('"' :: s.data.foldr (fun c acc => escapeJsonChar c ++ acc) ['"'])

/-- A run of spaces. -/
def spaces (n : Nat) : String := String.mk (List.replicate n ' ')

/-- Model of `JSON.stringify(v, null, 2)` at an ambient indentation, fuel-based
so it reduces by `rfl` (the fuel passed by `stringify2` always suffices). -/
def stringifyF : Nat → Json → Nat → String
  | 0, _, _ => ""
  | f + 1, j, ind =>
    match j with
    | .null => "null"
    | .bool b => if b then "true" else "false"
    | .num n => intRepr n
    | .str s => quoteJson s
    | .arr [] => "[]"
    | .arr xs =>
        "[\n" ++
          String.intercalate ",\n" (xs.map (fun x => spaces (ind + 2) ++ stringifyF f x (ind + 2)))
          ++ "\n" ++ spaces ind ++ "]"
    | .obj [] => "\x7b\x7d"
    | .obj fs =>
        "\x7b\n" ++
          String.intercalate ",\n"
            (fs.map (fun kv => spaces (ind + 2) ++ quoteJson kv.1 ++ ": " ++ stringifyF f kv.2 (ind + 2)))
          ++ "\n" ++ spaces ind ++ "\x7d"

/-- Model of `JSON.stringify(v, null, 2)` (src/app.js line 169). -/
def stringify2 (j : Json) : String := stringifyF (Json.weight j + 1) j 0

/-- JavaScript string conversion of a value, as template-literal interpolation
performs it (arrays join with commas, null and nested nulls render per the JS
Array-join rules, objects render as the default object tag). -/
def jsToStrF : Nat → Json → String
  | 0, _ => ""
  | f + 1, j =>
    match j with
    | .null => "null"
    | .bool b => if b then "true" else "false"
    | .num n => intRepr n
    | .str s => s
    | .arr xs =>
        String.intercalate ","
          (xs.map (fun x => match x with | .null => "" | _ => jsToStrF f x))
    | .obj _ => "[object Object]"

/-- JavaScript `String(v)` for a JSON value. -/
def jsValueToString (j : Json) : String := jsToStrF (Json.weight j + 1) j

/-- Interpolation of a possibly-absent request-body field into a template
literal: an absent field is `undefined` and renders as the text "undefined". -/
def renderTemplateValue : Option Json → String
  | none => "undefined"
  | some j => jsValueToString j

/-- Property access `o[name]` on a JSON value: a lookup on objects, `undefined`
(here `none`) on every other value. -/
def jsProp (j : Json) (name : String) : Option Json :=
  match j with
  | .obj fields => fields.lookup name
  | _ => none

/-- Index access `o[i]`: array element, character of a string, or the
string-keyed property of an object, `undefined` otherwise. -/
def jsIndex (j : Json) (i : Nat) : Option Json :=
  match j with
  | .arr xs => xs.get? i
  | .str s => (s.data.get? i).map (fun c => Json.str (String.mk [c]))
  | .obj fields => fields.lookup (natRepr i)
  | _ => none

/-- Is this value JSON null? -/
def Json.isNull : Json → Bool
  | .null => true
  | _ => false

/-- JavaScript falsiness of a JSON value. -/
def jsFalsy : Json → Bool
  | .null => true
  | .bool b => !b
  | .num n => n = 0
  | .str s => s = ""
  | _ => false

/-- Optional chaining `o?.step`: short-circuits on `undefined` and `null`. -/
def optChain (o : Option Json) (f : Json → Option Json) : Option Json :=
  match o with
  | none => none
  | some v => if v.isNull then none else f v

/-- The extraction `data.candidates?.[0]?.content?.parts?.[0]?.text`
(src/app.js line 151).  The first access is not optional, so a null `data`
throws a TypeError, which the surrounding try/catch turns into the error
message returned by the handler; every later step is optional chaining. -/
def extractEnhanced (data : Json) : Except String (Option Json) :=
  if data.isNull then
    .error "Cannot read properties of null (reading 'candidates')"
  else
    .ok (optChain (optChain (optChain (optChain (optChain
          (jsProp data "candidates")
          (fun x => jsIndex x 0))
          (fun x => jsProp x "content"))
          (fun x => jsProp x "parts"))
          (fun x => jsIndex x 0))
          (fun x => jsProp x "text"))

/-- An HTTP response: status code and JSON body. -/
structure HttpResp where
  status : Nat
  body : Json

/-- The failure body shape `res.status(s).json({ success: false, error: e })`. -/
def errResp (status : Nat) (e : Json) : HttpResp :=
  ⟨status, .obj [("success", .bool false), ("error", e)]⟩

/-- JavaScript truthiness of `process.env.GEMINI_API_KEY` (absent or a string). -/
def jsTruthyEnv : Option String → Bool
  | none => false
  | some s => !(s == "")

/-- Prompt text of the Gemini request body, up to the interpolated description
(src/app.js lines 74-76). -/
def promptIntro : String :=
  "You are a professional Jira issue enhancer. Transform the vague description below into a comprehensive, enterprise-grade bug report.\n\nOriginal Description: \""

/-- Prompt text of the Gemini request body after the interpolated description
(src/app.js lines 76-95). -/
def promptGuidelines : String :=
  "\"\n\nIMPORTANT GUIDELINES:\n" ++
  "1. Executive Summary Overview: Write a detailed paragraph explaining how you transformed the vague description into a comprehensive report. Mention what was unclear and how you clarified it.\n" ++
  "2. Key Outcomes: List 3-4 specific achievements (e.g., \"Transformed a vague report into...\", \"Established clear, testable Acceptance Criteria...\")\n" ++
  "3. Enhanced Description Title: ALWAYS start with \"Bug:\" followed by a specific, technical description\n" ++
  "4. Background: Provide detailed context about the feature, its purpose, and current state. Be narrative and thorough (3-5 sentences).\n" ++
  "5. Impact Analysis: Explain business impact in detail - mention service outage, SLAs, user trust, productivity. Use phrases like \"critical-level incident\", \"complete service outage\". (3-5 sentences)\n" ++
  "6. Additional Notes: Provide 3 actionable investigation steps (e.g., \"Initial investigation should focus on...\", \"It is recommended to check...\")\n" ++
  "7. Steps to Reproduce: Number them as \"1. Navigate to...\", \"2. Enter...\", etc.\n" ++
  "8. Actual Result: Describe what happens now in detail (2-3 sentences)\n" ++
  "9. Expected Result: Describe desired behavior with specifics like timing (\"within 3-5 seconds\")\n" ++
  "10. Acceptance Criteria: Use Gherkin format \"GIVEN...WHEN...THEN\" for each criterion (4-5 criteria)\n" ++
  "11. Priority: Use \"Critical\", \"High\", \"Medium\", or \"Low\" ONLY\n" ++
  "12. Validation Report: Write detailed paragraphs for QA Results, Improvement Suggestions, Compliance Checks\n" ++
  "13. Troubleshooting Guide Common Issues: List 4-5 general reporting problems (\"Ambiguous Titles...\", \"Missing Steps...\")\n" ++
  "14. Troubleshooting Guide Solutions: List 4-5 general solutions (\"Standardize Titles...\", \"Enforce Required Fields...\")\n" ++
  "15. Recommendations: Provide 4 process improvement recommendations\n\n" ++
  "Write in a professional, detailed, explanatory style. Be thorough and specific."

/-- The full prompt sent to the AI provider, with the request's
`currentDescription` interpolated verbatim between the fixed pieces. -/
def buildPrompt (currentDescription : String) : String :=
  promptIntro ++ currentDescription ++ promptGuidelines

/-- Post-fetch processing of the parsed Gemini response body
(src/app.js lines 150-173): extract the candidate text, fail on a missing or
falsy value, strip code fences, parse as JSON, and answer with the two-space
re-serialisation; every thrown error becomes a 500 with the error's message. -/
def processGemini (data : Json) : HttpResp :=
  match extractEnhanced data with
  | .error m => errResp 500 (.str m)
  | .ok none => errResp 500 (.str "Invalid Gemini response")
  | .ok (some v) =>
    if jsFalsy v then errResp 500 (.str "Invalid Gemini response")
    else
      match v with
      | .str s =>
        let cleaned := stripFenceL s.data
        match parseJsonL cleaned with
        | .error e => errResp 500 (.str (renderParseErr cleaned.length e))
        | .ok j =>
          ⟨200, .obj [("success", .bool true), ("enhancedDescription", .str (stringify2 j))]⟩
      | _ => errResp 500 (.str "enhanced.trim is not a function")

/-- Observable behaviour of one `POST /enhance-description` request: whether the
provider was called over the network, the prompt sent when it was, and the HTTP
response. -/
structure EnhanceStep where
  fetchCalled : Bool
  prompt : Option String
  response : HttpResp

/-- The `POST /enhance-description` handler (src/app.js lines 57-174) as a
function of the configured API key, the parsed request body, and the JSON body
the provider answers with when it is called. -/
def enhanceDescription (apiKey : Option String) (body : List (String × Json))
    (data : Json) : EnhanceStep :=
  let currentDescription := body.lookup "currentDescription"
  if jsTruthyEnv apiKey = false then
    { fetchCalled := false, prompt := none
      response := errResp 500 (.str "GEMINI_API_KEY not set") }
  else
    { fetchCalled := true
      prompt := some (buildPrompt (renderTemplateValue currentDescription))
      response := processGemini data }

/-- The Atlassian Document Format payload the issue updater builds
(src/app.js lines 185-196): a doc of one paragraph wrapping one text node. -/
def adfDocument (newDescription : String) : Json :=
  .obj [("type", .str "doc"), ("version", .num 1),
        ("content", .arr [
          .obj [("type", .str "paragraph"),
                ("content", .arr [
                  .obj [("type", .str "text"), ("text", .str newDescription)]])]])]

/-- Extract the single text run back out of a generated document. -/
def extractAdfText (doc : Json) : Option String :=
  match jsProp doc "content" with
  | some (.arr [p]) =>
    match jsProp p "content" with
    | some (.arr [t]) =>
      match jsProp t "text" with
      | some (.str s) => some s
      | _ => none
    | _ => none
  | _ => none

/-- The authenticated PUT issued to Jira: target URL and JSON payload. -/
structure JiraPutRequest where
  url : String
  payload : Json

/-- Observable behaviour of one `PUT /update-description` request. -/
structure UpdateStep where
  request : JiraPutRequest
  response : HttpResp

/-- The `PUT /update-description` handler (src/app.js lines 177-206) as a
function of the request body fields and of the outcome the Jira client reports
to the callback: a transport error flag, the upstream status code, and the
upstream response body. -/
def updateDescription (issueKey newDescription : String) (transportErr : Bool)
    (statusCode : Nat) (upstreamBody : Json) : UpdateStep :=
  { request :=
      { url := "/rest/api/3/issue/" ++ issueKey
        payload := .obj [("fields", .obj [("description", adfDocument newDescription)])] }
    response :=
      if transportErr ∨ 400 ≤ statusCode then errResp 500 upstreamBody
      else ⟨200, .obj [("success", .bool true)]⟩ }

/-- Outcome of the framework's per-request signature verification. -/
inductive AuthOutcome where
  | ok
  | fail (message : Option String)

/-- Result of running a guarded route: whether the wrapped handler ran, and the
response sent. -/
structure GateResult where
  invoked : Bool
  response : HttpResp

/-- The message attached to an authentication failure,
`err.message || 'Unknown error'`. -/
def authErrMessage : Option String → String
  | some s => if s == "" then "Unknown error" else s
  | none => "Unknown error"

/-- The skip-QSH auth gate (src/app.js lines 31-43): on verification failure
respond 401 with a structured body and do not run the wrapped handler. -/
def authenticateSkipQsh (outcome : AuthOutcome) (route : HttpResp) : GateResult :=
  match outcome with
  | .ok => ⟨true, route⟩
  | .fail m =>
      ⟨false, errResp 401 (.str ("Authentication failed: " ++ authErrMessage m))⟩

/-- Modelled from the spec: the strict Auth Gate variant is the framework's
`addon.authenticate()` middleware, whose implementation is not part of this
repository's source; per spec section 4.4 it rejects a failed verification with
HTTP 401 and a structured success/error body without invoking the route. -/
def authenticateStrict (outcome : AuthOutcome) (route : HttpResp) : GateResult :=
  match outcome with
  | .ok => ⟨true, route⟩
  | .fail m => ⟨false, errResp 401 (.str (authErrMessage m))⟩

/-- A provider response envelope carrying one candidate text, used to exercise
the handler at concrete inputs. -/
def geminiEnvelope (text : String) : Json :=
  .obj [("candidates", .arr [
    .obj [("content", .obj [("parts", .arr [ .obj [("text", .str text)] ])])] ])]

/-! ## Whitespace, trimming and matching lemmas -/

theorem dropWhile_head_false {p : Char → Bool} {l r : List Char} {c : Char}
    (h : l.dropWhile p = c :: r) : p c = false := by
  induction l with
  | nil => simp at h
  | cons a l ih =>
    rw [List.dropWhile_cons] at h
    split at h
    · exact ih h
    · next hp =>
      injection h with h1 _
      subst h1
      simpa using hp

theorem dropWhile_append_cons {p : Char → Bool} {l r : List Char} {c : Char}
    (l2 : List Char) (h : l.dropWhile p = c :: r) :
    (l ++ l2).dropWhile p = c :: (r ++ l2) := by
  rw [List.dropWhile_append, h]
  simp

theorem dropWhile_idem (p : Char → Bool) (l : List Char) :
    (l.dropWhile p).dropWhile p = l.dropWhile p := by
  cases h : l.dropWhile p with
  | nil => rfl
  | cons c r =>
    have hc := dropWhile_head_false h
    simp [List.dropWhile_cons, hc]

theorem rdropWs_nil : rdropWs [] = [] := rfl

theorem rdropWs_append_ws {l : List Char} {c : Char} (hc : wsChar c = true) :
    rdropWs (l ++ [c]) = rdropWs l := by
  unfold rdropWs
  rw [List.reverse_append]
  simp [List.dropWhile_cons, hc]

theorem rdropWs_append_last {l : List Char} {c : Char} (hc : wsChar c = false) :
    rdropWs (l ++ [c]) = l ++ [c] := by
  unfold rdropWs
  rw [List.reverse_append]
  simp [List.dropWhile_cons, hc]

theorem rdropWs_idem (l : List Char) : rdropWs (rdropWs l) = rdropWs l := by
  unfold rdropWs
  simp [dropWhile_idem]

theorem rdropWs_head (c : Char) (r : List Char) :
    rdropWs (c :: r) = [] ∨ ∃ r2, rdropWs (c :: r) = c :: r2 := by
  unfold rdropWs
  have hrev : (c :: r).reverse = r.reverse ++ [c] := by simp
  rw [hrev, List.dropWhile_append]
  by_cases he : (List.dropWhile wsChar r.reverse).isEmpty = true
  · simp only [he, if_true]
    by_cases hc : wsChar c = true
    · left; simp [List.dropWhile_cons, hc]
    · right
      refine ⟨[], ?_⟩
      simp only [Bool.not_eq_true] at hc
      simp [List.dropWhile_cons, hc]
  · right
    refine ⟨(List.dropWhile wsChar r.reverse).reverse, ?_⟩
    simp [he]

theorem trimWs_fix {l : List Char} {c d : Char} (hc : wsChar c = false)
    (hd : wsChar d = false) :
    trimWs (c :: (l ++ [d])) = c :: (l ++ [d]) := by
  unfold trimWs skipWs
  rw [List.dropWhile_cons]
  simp only [hc, Bool.false_eq_true, if_false]
  have : c :: (l ++ [d]) = (c :: l) ++ [d] := by simp
  rw [this, rdropWs_append_last hd]

theorem trimWs_idem (l : List Char) : trimWs (trimWs l) = trimWs l := by
  unfold trimWs
  cases h : skipWs l with
  | nil => simp [skipWs, rdropWs_nil]
  | cons c r =>
    have hc : wsChar c = false := dropWhile_head_false h
    rcases rdropWs_head c r with h2 | ⟨r2, h2⟩
    · rw [h2]; simp [skipWs, rdropWs_nil]
    · rw [h2]
      have hs : skipWs (c :: r2) = c :: r2 := by
        simp [skipWs, List.dropWhile_cons, hc]
      rw [hs, ← h2, rdropWs_idem]

theorem matchLit_append_self (pat u : List Char) : matchLit pat (pat ++ u) = some u := by
  induction pat with
  | nil => rfl
  | cons p ps ih => simp [matchLit, ih]

theorem matchLit_neg_head {p c : Char} (ps cs : List Char) (h : c ≠ p) :
    matchLit (p :: ps) (c :: cs) = none := by
  simp [matchLit, h]

/-! ## Lemmas about the global fence replacement -/

theorem replaceFenceAux_nil (pat : List Char) (f : Nat) :
    replaceFenceAux pat f [] = [] := by
  cases f <;> rfl

theorem replaceFenceAux_noMatch {pat l : List Char}
    (h : noMatchB pat l = true) : ∀ f, replaceFenceAux pat f l = l := by
  induction l with
  | nil => exact fun f => replaceFenceAux_nil pat f
  | cons c cs ih =>
    intro f
    cases f with
    | zero => rfl
    | succ f =>
      simp only [noMatchB, List.tails_cons, List.all_cons, Bool.and_eq_true] at h
      obtain ⟨h1, h2⟩ := h
      rw [Option.isNone_iff_eq_none] at h1
      simp only [replaceFenceAux, h1]
      exact congrArg (c :: ·) (ih h2 f)

theorem noMatch_fenceJson_tail {a : List Char} (ha : btick ∉ a) :
    noMatchB fenceJson (a ++ '\n' :: fencePlain) = true := by
  induction a with
  | nil => decide
  | cons c a ih =>
    have hc : c ≠ btick := fun h => ha (h ▸ List.mem_cons_self c a)
    have hm : matchLit fenceJson (c :: (a ++ '\n' :: fencePlain)) = none := by
      rw [show fenceJson = btick :: [btick, btick, 'j', 's', 'o', 'n'] from rfl]
      exact matchLit_neg_head _ _ hc
    simp only [List.cons_append, noMatchB, List.tails_cons, List.all_cons,
      Bool.and_eq_true]
    exact ⟨by simp [hm], ih (fun h => ha (List.mem_cons_of_mem c h))⟩

theorem replaceFenceAux_skip (ps : List Char) {a : List Char} (l : List Char)
    (ha : btick ∉ a) :
    ∀ {f : Nat}, a.length ≤ f →
      replaceFenceAux (btick :: ps) f (a ++ l) =
        a ++ replaceFenceAux (btick :: ps) (f - a.length) l := by
  induction a with
  | nil => intro f _; simp
  | cons c a ih =>
    intro f hf
    cases f with
    | zero => simp at hf
    | succ f =>
      have hc : c ≠ btick := fun h => ha (h ▸ List.mem_cons_self c a)
      have h0 : matchLit (btick :: ps) (c :: (a ++ l)) = none :=
        matchLit_neg_head _ _ hc
      simp only [List.cons_append, replaceFenceAux, List.append_eq, h0]
      have ha2 : btick ∉ a := fun h => ha (List.mem_cons_of_mem c h)
      have hf2 : a.length ≤ f := by simpa using hf
      rw [ih ha2 hf2]
      simp [Nat.succ_sub_succ]

theorem replaceFenceAux_head_match {p : Char} (ps u : List Char) (f : Nat) :
    replaceFenceAux (p :: ps) (f + 1) ((p :: ps) ++ u) =
      replaceFenceAux (p :: ps) f (u.dropWhile wsChar) := by
  have h := matchLit_append_self (p :: ps) u
  simp only [List.cons_append] at h ⊢
  simp [replaceFenceAux, h]

theorem replaceFenceAux_drop_tail {a : List Char} {f : Nat} (ha : btick ∉ a)
    (hf : a.length + 1 ≤ f) :
    replaceFenceAux fencePlain f (a ++ fencePlain) = a := by
  have h4 := replaceFenceAux_skip [btick, btick] fencePlain ha
      (f := f) (by omega)
  rw [show (btick :: [btick, btick] : List Char) = fencePlain from rfl] at h4
  rw [h4]
  have hg : f - a.length = (f - a.length - 1) + 1 := by omega
  rw [hg]
  have h5 := replaceFenceAux_head_match (p := btick) [btick, btick] []
      (f - a.length - 1)
  rw [show (btick :: [btick, btick] : List Char) = fencePlain from rfl] at h5
  simp only [List.append_nil] at h5
  rw [h5]
  simp [replaceFenceAux_nil]

theorem mem_skipWs {tl : List Char} {c : Char} (h : c ∈ skipWs tl) : c ∈ tl :=
  (List.dropWhile_suffix wsChar).subset h

theorem stripFence_wrapJson {tl : List Char} {c : Char} {r : List Char}
    (hb : btick ∉ tl) (hd : skipWs tl = c :: r) :
    stripFenceL (fenceJson ++ '\n' :: (tl ++ '\n' :: fencePlain)) = (c :: r) ++ ['\n'] := by
  have hd' : List.dropWhile wsChar tl = c :: r := hd
  have hbcr : btick ∉ c :: r := fun hmem => hb (mem_skipWs (by rw [hd]; exact hmem))
  have habt : btick ∉ (c :: r) ++ ['\n'] := by
    intro hmem
    rcases List.mem_append.mp hmem with h | h
    · exact hbcr h
    · simp at h; exact absurd h (by decide)
  have hW : fenceJson ++ '\n' :: (tl ++ '\n' :: fencePlain)
      = btick :: (([btick, btick, 'j', 's', 'o', 'n', '\n'] ++ (tl ++ ['\n', btick, btick])) ++ [btick]) := by
    simp [fenceJson, fencePlain]
  have htrim : trimWs (fenceJson ++ '\n' :: (tl ++ '\n' :: fencePlain))
      = fenceJson ++ '\n' :: (tl ++ '\n' :: fencePlain) := by
    rw [hW, trimWs_fix (by decide) (by decide), ← hW]
  have hcond : (matchLit fenceJson
      (trimWs (fenceJson ++ '\n' :: (tl ++ '\n' :: fencePlain)))).isSome = true := by
    rw [htrim, matchLit_append_self]
    rfl
  have hdrop : List.dropWhile wsChar ('\n' :: (tl ++ '\n' :: fencePlain))
      = (c :: r) ++ '\n' :: fencePlain := by
    rw [List.dropWhile_cons]
    simp only [show wsChar '\n' = true from rfl, if_true]
    rw [dropWhile_append_cons ('\n' :: fencePlain) hd']
    simp
  have hstep1 : replaceFence fenceJson (fenceJson ++ '\n' :: (tl ++ '\n' :: fencePlain))
      = (c :: r) ++ '\n' :: fencePlain := by
    unfold replaceFence
    have hlen : (fenceJson ++ '\n' :: (tl ++ '\n' :: fencePlain)).length
        = (tl.length + 11) + 1 := by
      simp [fenceJson, fencePlain]
    rw [hlen]
    have hm := replaceFenceAux_head_match (p := btick)
      [btick, btick, 'j', 's', 'o', 'n'] ('\n' :: (tl ++ '\n' :: fencePlain)) (tl.length + 11)
    rw [show (btick :: [btick, btick, 'j', 's', 'o', 'n'] : List Char) = fenceJson from rfl] at hm
    rw [hm, hdrop]
    exact replaceFenceAux_noMatch (noMatch_fenceJson_tail hbcr) _
  have hstep2 : replaceFence fencePlain ((c :: r) ++ '\n' :: fencePlain)
      = (c :: r) ++ ['\n'] := by
    unfold replaceFence
    have hshape : (c :: r) ++ '\n' :: fencePlain = ((c :: r) ++ ['\n']) ++ fencePlain := by
      simp
    rw [hshape]
    exact replaceFenceAux_drop_tail habt
      (by simp [fencePlain, List.length_append])
  simp only [stripFenceL, hcond, if_true]
  rw [htrim, hstep1, hstep2]

theorem stripFence_wrapPlain {tl : List Char} {c : Char} {r : List Char}
    (hb : btick ∉ tl) (hd : skipWs tl = c :: r) :
    stripFenceL (fencePlain ++ '\n' :: (tl ++ '\n' :: fencePlain)) = (c :: r) ++ ['\n'] := by
  have hd' : List.dropWhile wsChar tl = c :: r := hd
  have hbcr : btick ∉ c :: r := fun hmem => hb (mem_skipWs (by rw [hd]; exact hmem))
  have habt : btick ∉ (c :: r) ++ ['\n'] := by
    intro hmem
    rcases List.mem_append.mp hmem with h | h
    · exact hbcr h
    · simp at h; exact absurd h (by decide)
  have hW : fencePlain ++ '\n' :: (tl ++ '\n' :: fencePlain)
      = btick :: (([btick, btick, '\n'] ++ (tl ++ ['\n', btick, btick])) ++ [btick]) := by
    simp [fencePlain]
  have htrim : trimWs (fencePlain ++ '\n' :: (tl ++ '\n' :: fencePlain))
      = fencePlain ++ '\n' :: (tl ++ '\n' :: fencePlain) := by
    rw [hW, trimWs_fix (by decide) (by decide), ← hW]
  have hnoJson : matchLit fenceJson (fencePlain ++ '\n' :: (tl ++ '\n' :: fencePlain)) = none := rfl
  have hcond2 : (matchLit fencePlain
      (trimWs (fencePlain ++ '\n' :: (tl ++ '\n' :: fencePlain)))).isSome = true := by
    rw [htrim, matchLit_append_self]
    rfl
  have hdrop : List.dropWhile wsChar ('\n' :: (tl ++ '\n' :: fencePlain))
      = (c :: r) ++ '\n' :: fencePlain := by
    rw [List.dropWhile_cons]
    simp only [show wsChar '\n' = true from rfl, if_true]
    rw [dropWhile_append_cons ('\n' :: fencePlain) hd']
    simp
  have hlenr : r.length + 1 ≤ tl.length := by
    have := (List.dropWhile_suffix wsChar (l := tl)).length_le
    rw [hd'] at this
    simpa using this
  have hstep : replaceFence fencePlain (fencePlain ++ '\n' :: (tl ++ '\n' :: fencePlain))
      = (c :: r) ++ ['\n'] := by
    unfold replaceFence
    have hlen : (fencePlain ++ '\n' :: (tl ++ '\n' :: fencePlain)).length
        = (tl.length + 7) + 1 := by
      simp [fencePlain]
    rw [hlen]
    have hm := replaceFenceAux_head_match (p := btick)
      [btick, btick] ('\n' :: (tl ++ '\n' :: fencePlain)) (tl.length + 7)
    rw [show (btick :: [btick, btick] : List Char) = fencePlain from rfl] at hm
    rw [hm, hdrop]
    have hshape : (c :: r) ++ '\n' :: fencePlain = ((c :: r) ++ ['\n']) ++ fencePlain := by
      simp
    rw [hshape]
    exact replaceFenceAux_drop_tail habt
      (by simp [List.length_append]; omega)
  simp only [stripFenceL, htrim, hnoJson, Option.isSome_none, Bool.false_eq_true,
    if_false, hcond2, if_true]
  exact hstep

/-! ## Parser-side lemmas -/

theorem wrapJsonFence_data (t : String) :
    (wrapJsonFence t).data = fenceJson ++ '\n' :: (t.data ++ '\n' :: fencePlain) := by
  show ("```json\n" ++ t ++ "\n```").data = _
  rw [String.data_append, String.data_append]
  rw [show "```json\n".data = fenceJson ++ ['\n'] from rfl,
      show "\n```".data = '\n' :: fencePlain from rfl]
  simp

theorem wrapPlainFence_data (t : String) :
    (wrapPlainFence t).data = fencePlain ++ '\n' :: (t.data ++ '\n' :: fencePlain) := by
  show ("```\n" ++ t ++ "\n```").data = _
  rw [String.data_append, String.data_append]
  rw [show "```\n".data = fencePlain ++ ['\n'] from rfl,
      show "\n```".data = '\n' :: fencePlain from rfl]
  simp

theorem parseJsonL_congr {l1 l2 : List Char} (h : trimWs l1 = trimWs l2) :
    parseJsonL l1 = parseJsonL l2 := by
  unfold parseJsonL
  rw [h]

theorem parseJsonL_ok_core {l : List Char} {v : Json} (h : parseJsonL l = .ok v) :
    parseValCore ((trimWs l).length + 1) (trimWs l) = .ok (v, []) := by
  simp only [parseJsonL] at h
  cases hc : parseValCore ((trimWs l).length + 1) (trimWs l) with
  | error e => rw [hc] at h; exact absurd h (by simp)
  | ok p =>
    obtain ⟨v2, rest⟩ := p
    rw [hc] at h
    cases rest with
    | nil =>
      have h2 : v2 = v := by simpa using h
      rw [h2]
    | cons c2 r2 => exact absurd h (by simp)

theorem parseValCore_ok_shape {f : Nat} {s : List Char} {v : Json} {rest : List Char}
    (h : parseValCore f s = .ok (v, rest)) :
    ∃ c r, s = c :: r ∧ goodStart c = true := by
  cases f with
  | zero => exact absurd h (by simp [parseValCore])
  | succ f =>
    cases s with
    | nil => exact absurd h (by simp [parseValCore])
    | cons c r =>
      refine ⟨c, r, rfl, ?_⟩
      by_contra hg
      rw [Bool.not_eq_true] at hg
      simp only [goodStart, Bool.or_eq_false_iff, decide_eq_false_iff_not] at hg
      obtain ⟨⟨⟨⟨⟨⟨⟨h1, h2⟩, h3⟩, h4⟩, h5⟩, h6⟩, h7⟩, h8⟩ := hg
      simp only [parseValCore, if_neg h1, if_neg h2, if_neg h3, if_neg h4,
        if_neg h5, if_neg h6, if_neg h7, h8, Bool.false_eq_true, if_false] at h
      exact absurd h (by simp)

theorem goodStart_not_btick {c : Char} (h : goodStart c = true) : c ≠ btick := by
  intro he
  subst he
  exact absurd h (by decide)

theorem goodStart_not_ws {c : Char} (h : goodStart c = true) : wsChar c = false := by
  by_contra hw
  rw [Bool.not_eq_false] at hw
  simp only [wsChar, Bool.or_eq_true, decide_eq_true_eq] at hw
  simp only [goodStart, Bool.or_eq_true, decide_eq_true_eq] at h
  rcases hw with ((hw | hw) | hw) | hw <;> subst hw <;>
    rcases h with (((((((h | h) | h) | h) | h) | h) | h) | h) <;> exact absurd h (by decide)

theorem stripFenceL_no_fence {l : List Char} {c : Char} {r : List Char}
    (ht : trimWs l = c :: r) (hc : c ≠ btick) :
    stripFenceL l = trimWs l := by
  have h1 : matchLit fenceJson (trimWs l) = none := by
    rw [ht, show fenceJson = btick :: [btick, btick, 'j', 's', 'o', 'n'] from rfl]
    exact matchLit_neg_head _ _ hc
  have h2 : matchLit fencePlain (trimWs l) = none := by
    rw [ht, show fencePlain = btick :: [btick, btick] from rfl]
    exact matchLit_neg_head _ _ hc
  simp [stripFenceL, h1, h2]

/-! ## Nonemptiness of rendered output -/

theorem ne_empty_of_data_cons {a : String} {c : Char} {l : List Char}
    (h : a.data = c :: l) : a ≠ "" := by
  intro he
  rw [he] at h
  have h2 : ([] : List Char) = c :: l := h
  exact absurd h2 (by simp)

theorem append_ne_empty {a : String} (b : String) (h : a ≠ "") : a ++ b ≠ "" := by
  intro he
  apply h
  have h2 : a.data ++ b.data = [] := by
    rw [← String.data_append, he]
  rw [String.ext_iff]
  rw [(List.append_eq_nil.mp h2).1]

theorem natReprAux_length : ∀ (f n : Nat) (acc : List Char),
    acc.length + 1 ≤ (natReprAux (f + 1) n acc).length := by
  intro f
  induction f with
  | zero =>
    intro n acc
    rw [natReprAux]
    split <;> simp [natReprAux]
  | succ f ih =>
    intro n acc
    rw [natReprAux]
    split
    · simp
    · have h := ih (n / 10) (Char.ofNat (48 + n % 10) :: acc)
      simp only [List.length_cons] at h
      omega

theorem natRepr_ne_empty (n : Nat) : natRepr n ≠ "" := by
  have h := natReprAux_length n n []
  cases hx : natReprAux (n + 1) n [] with
  | nil => rw [hx] at h; simp at h
  | cons c l =>
    exact ne_empty_of_data_cons (a := natRepr n)
      (by rw [show (natRepr n).data = natReprAux (n + 1) n [] from rfl, hx])

theorem intRepr_ne_empty (i : Int) : intRepr i ≠ "" := by
  unfold intRepr
  split
  · exact append_ne_empty _ (by decide)
  · exact natRepr_ne_empty _

theorem renderParseErr_ne_empty (total : Nat) (e : JsParseErr) :
    renderParseErr total e ≠ "" := by
  cases e with
  | fuel => exact ne_empty_of_data_cons (c := 'M') rfl
  | unexpectedEnd => exact ne_empty_of_data_cons (c := 'U') rfl
  | unexpectedToken c rem =>
      exact append_ne_empty _ (append_ne_empty _ (append_ne_empty _ (by decide)))
  | unterminatedString rem => exact append_ne_empty _ (by decide)
  | badControl rem => exact append_ne_empty _ (by decide)
  | badEscape rem => exact append_ne_empty _ (by decide)

theorem stringify2_ne_empty (j : Json) : stringify2 j ≠ "" := by
  cases j with
  | null => decide
  | bool b => cases b <;> decide
  | num n => exact intRepr_ne_empty n
  | str s => exact ne_empty_of_data_cons (c := '"') rfl
  | arr xs =>
    cases xs with
    | nil => decide
    | cons x xs =>
      exact append_ne_empty _ (append_ne_empty _ (append_ne_empty _
        (append_ne_empty _ (by decide))))
  | obj fs =>
    cases fs with
    | nil => decide
    | cons kv fs =>
      exact append_ne_empty _ (append_ne_empty _ (append_ne_empty _
        (append_ne_empty _ (by decide))))

/-! ## Claim theorems -/

/-- C1: For every request to POST /enhance-description, if the GEMINI_API_KEY
environment variable is unset (absent or empty), the handler returns HTTP 500
with the body of the form success false and the config-error message, and
performs no network call to the AI provider (no prompt is built either). -/
theorem enhance_missing_api_key_no_call (apiKey : Option String)
    (body : List (String × Json)) (data : Json)
    (h : apiKey = none ∨ apiKey = some "") :
    enhanceDescription apiKey body data =
      { fetchCalled := false, prompt := none
        response := errResp 500 (.str "GEMINI_API_KEY not set") } := by
  rcases h with h | h <;> subst h <;> rfl

/-- Witness for C1 at a concrete request with the key absent. -/
theorem enhance_missing_api_key_no_call_witness :
    enhanceDescription none [] (geminiEnvelope "x") =
      { fetchCalled := false, prompt := none
        response := errResp 500 (.str "GEMINI_API_KEY not set") } :=
  enhance_missing_api_key_no_call none [] (geminiEnvelope "x") (Or.inl rfl)

/-- C2: For every AI provider response envelope in which the path
candidates[0].content.parts[0].text is absent at any level (the optional-chain
extraction yields undefined), the handler returns HTTP 500 with the
provider-error body, attempting no fallback extraction. -/
theorem enhance_missing_candidate_text_500 (apiKey : Option String)
    (body : List (String × Json)) (data : Json)
    (hkey : jsTruthyEnv apiKey = true)
    (hex : extractEnhanced data = .ok none) :
    (enhanceDescription apiKey body data).response =
      errResp 500 (.str "Invalid Gemini response") := by
  simp [enhanceDescription, hkey, processGemini, hex]

/-- Witness for C2: an envelope with no candidates at all. -/
theorem enhance_missing_candidate_text_500_witness :
    (enhanceDescription (some "key") [] (.obj [])).response =
      errResp 500 (.str "Invalid Gemini response") :=
  enhance_missing_candidate_text_500 (some "key") [] (.obj []) rfl rfl

/-- C4: For every AI candidate text that, after fence-stripping, is not valid
JSON, the handler returns HTTP 500 whose error field is exactly the rendering of
the original parse failure — a non-empty message, not a substituted generic
one. -/
theorem enhance_parse_error_message_preserved (apiKey : Option String)
    (body : List (String × Json)) (data : Json) (s : String) (e : JsParseErr)
    (hkey : jsTruthyEnv apiKey = true)
    (hex : extractEnhanced data = .ok (some (.str s)))
    (hs : s ≠ "")
    (hp : parseJsonL (stripFenceL s.data) = .error e) :
    (enhanceDescription apiKey body data).response =
      errResp 500 (.str (renderParseErr (stripFenceL s.data).length e)) ∧
    renderParseErr (stripFenceL s.data).length e ≠ "" := by
  constructor
  · simp [enhanceDescription, hkey, processGemini, hex, jsFalsy, hs, hp]
  · exact renderParseErr_ne_empty _ _

/-- Witness for C4: a candidate text that is not JSON. -/
theorem enhance_parse_error_message_preserved_witness :
    (enhanceDescription (some "key") [] (geminiEnvelope "nope")).response =
      errResp 500 (.str "Unexpected token n in JSON at position 0") ∧
    renderParseErr (stripFenceL "nope".data).length (.unexpectedToken 'n' 4) ≠ "" :=
  enhance_parse_error_message_preserved (some "key") [] (geminiEnvelope "nope")
    "nope" (.unexpectedToken 'n' 4) rfl rfl (by decide) rfl

/-- C5: For every successful POST /enhance-description response, the
enhancedDescription field equals the two-space-indented re-serialisation of the
parsed normalised JSON object (field order preserved as parsed), and the body
has the shape success true with the string value. -/
theorem enhance_success_reserializes_two_space (apiKey : Option String)
    (body : List (String × Json)) (data : Json) (s : String) (j : Json)
    (hkey : jsTruthyEnv apiKey = true)
    (hex : extractEnhanced data = .ok (some (.str s)))
    (hs : s ≠ "")
    (hp : parseJsonL (stripFenceL s.data) = .ok j) :
    (enhanceDescription apiKey body data).response =
      ⟨200, .obj [("success", .bool true),
                  ("enhancedDescription", .str (stringify2 j))]⟩ := by
  simp [enhanceDescription, hkey, processGemini, hex, jsFalsy, hs, hp]

/-- Witness for C5: the spec scenario, a fenced Issue Type Bug object that comes
back re-serialised with two-space indentation. -/
theorem enhance_success_reserializes_two_space_witness :
    (enhanceDescription (some "key") []
        (geminiEnvelope "```json\n\x7b\"Issue Type\": \"Bug\"\x7d\n```")).response =
      ⟨200, .obj [("success", .bool true),
                  ("enhancedDescription", .str "\x7b\n  \"Issue Type\": \"Bug\"\n\x7d")]⟩ :=
  enhance_success_reserializes_two_space (some "key") []
    (geminiEnvelope "```json\n\x7b\"Issue Type\": \"Bug\"\x7d\n```")
    "```json\n\x7b\"Issue Type\": \"Bug\"\x7d\n```"
    (.obj [("Issue Type", .str "Bug")]) rfl rfl (by decide) rfl

/-- C6: For every newDescription, the Atlassian Document Format payload built by
the issue updater is exactly a doc (type doc, version 1) whose content is one
paragraph node wrapping one text node, and extracting the text back out returns
the original newDescription unchanged. -/
theorem adf_payload_roundtrip (issueKey newDescription : String) (te : Bool)
    (sc : Nat) (b : Json) :
    (updateDescription issueKey newDescription te sc b).request.payload =
      .obj [("fields", .obj [("description", adfDocument newDescription)])] ∧
    jsProp (adfDocument newDescription) "type" = some (.str "doc") ∧
    jsProp (adfDocument newDescription) "version" = some (.num 1) ∧
    jsProp (adfDocument newDescription) "content" =
      some (.arr [.obj [("type", .str "paragraph"),
        ("content", .arr [.obj [("type", .str "text"),
          ("text", .str newDescription)]])]]) ∧
    extractAdfText (adfDocument newDescription) = some newDescription :=
  ⟨rfl, rfl, rfl, rfl, rfl⟩

/-- C7 counterexample: a 304 upstream status is not a 2xx status, yet the
callback — which only checks for statuses of 400 and above — answers success. -/
theorem update_non_2xx_redirect_succeeds :
    (updateDescription "PROJ-1" "Fixed" false 304 (.str "Not Modified")).response =
      ⟨200, .obj [("success", .bool true)]⟩ ∧
    ¬ (200 ≤ 304 ∧ 304 < 300) :=
  ⟨rfl, by omega⟩

/-- C7 (amended): the handler returns HTTP 500 with the upstream body as the
error field if and only if the Jira PUT reports a transport error or a status
of 400 or above; otherwise it returns success true.  In particular 204 yields
success and 404 yields 500 carrying the upstream body. -/
theorem update_500_iff_error_or_4xx (issueKey newDescription : String)
    (te : Bool) (sc : Nat) (b : Json) :
    ((updateDescription issueKey newDescription te sc b).response = errResp 500 b ↔
      (te = true ∨ 400 ≤ sc)) ∧
    (te = false → sc < 400 →
      (updateDescription issueKey newDescription te sc b).response =
        ⟨200, .obj [("success", .bool true)]⟩) := by
  by_cases hcond : (te = true ∨ 400 ≤ sc)
  · have hr : (updateDescription issueKey newDescription te sc b).response =
        errResp 500 b := by
      simp only [updateDescription]
      rw [if_pos hcond]
    refine ⟨⟨fun _ => hcond, fun _ => hr⟩, fun hte hsc => ?_⟩
    rcases hcond with h | h
    · exact absurd h (by rw [hte]; simp)
    · omega
  · have hr : (updateDescription issueKey newDescription te sc b).response =
        ⟨200, .obj [("success", .bool true)]⟩ := by
      simp only [updateDescription]
      rw [if_neg hcond]
    refine ⟨⟨fun he => ?_, fun h => absurd h hcond⟩, fun _ _ => hr⟩
    rw [hr] at he
    have := congrArg HttpResp.status he
    simp [errResp] at this

/-- Witness for C7 (amended): the spec scenario, a 204 mock and a 404 mock. -/
theorem update_500_iff_error_or_4xx_witness :
    (updateDescription "PROJ-1" "Fixed" false 204 (.str "")).response =
      ⟨200, .obj [("success", .bool true)]⟩ ∧
    (updateDescription "PROJ-1" "Fixed" false 404 (.str "Issue does not exist")).response =
      errResp 500 (.str "Issue does not exist") :=
  ⟨(update_500_iff_error_or_4xx "PROJ-1" "Fixed" false 204 (.str "")).2 rfl (by omega),
   (update_500_iff_error_or_4xx "PROJ-1" "Fixed" false 404
      (.str "Issue does not exist")).1.mpr (Or.inr (by omega))⟩

/-- C8: For every request whose signature verification fails, both the strict
and the skip-QSH auth gate variants respond 401 with a structured body carrying
success false and an error message, and the wrapped route handler is not
invoked. -/
theorem auth_gates_reject_401_structured (m : Option String) (route : HttpResp) :
    (authenticateSkipQsh (.fail m) route).invoked = false ∧
    (authenticateSkipQsh (.fail m) route).response =
      errResp 401 (.str ("Authentication failed: " ++ authErrMessage m)) ∧
    (authenticateStrict (.fail m) route).invoked = false ∧
    (authenticateStrict (.fail m) route).response.status = 401 ∧
    jsProp (authenticateSkipQsh (.fail m) route).response.body "success" =
      some (.bool false) ∧
    jsProp (authenticateStrict (.fail m) route).response.body "success" =
      some (.bool false) ∧
    (∃ s, jsProp (authenticateStrict (.fail m) route).response.body "error" =
      some (.str s)) :=
  ⟨rfl, rfl, rfl, rfl, rfl, rfl, ⟨authErrMessage m, rfl⟩⟩

/-- C9: An AI response whose candidate text is present but empty is rejected as
a provider failure (the presence check is a falsiness check), and consequently
every success response carries a non-empty enhancedDescription string. -/
theorem enhance_empty_text_rejected_success_nonempty :
    (∀ (apiKey : Option String) (body : List (String × Json)) (data : Json),
        jsTruthyEnv apiKey = true →
        extractEnhanced data = .ok (some (.str "")) →
        (enhanceDescription apiKey body data).response =
          errResp 500 (.str "Invalid Gemini response")) ∧
    (∀ (apiKey : Option String) (body : List (String × Json)) (data : Json),
        (enhanceDescription apiKey body data).response.status = 200 →
        ∃ s, jsProp (enhanceDescription apiKey body data).response.body
            "enhancedDescription" = some (.str s) ∧ s ≠ "") := by
  constructor
  · intro apiKey body data hkey hex
    simp [enhanceDescription, hkey, processGemini, hex, jsFalsy]
  · intro apiKey body data hst
    by_cases hkey : jsTruthyEnv apiKey = false
    · simp [enhanceDescription, hkey, errResp] at hst
    · rw [Bool.not_eq_false] at hkey
      simp only [enhanceDescription, hkey, Bool.true_eq_false, if_false] at hst ⊢
      cases hex : extractEnhanced data with
      | error msg => simp [processGemini, hex, errResp] at hst
      | ok o =>
        cases o with
        | none => simp [processGemini, hex, errResp] at hst
        | some v =>
          by_cases hf : jsFalsy v = true
          · simp [processGemini, hex, hf, errResp] at hst
          · cases v with
            | str s =>
              cases hp : parseJsonL (stripFenceL s.data) with
              | error e => simp [processGemini, hex, hf, hp, errResp] at hst
              | ok j =>
                refine ⟨stringify2 j, ?_, stringify2_ne_empty j⟩
                simp only [processGemini, hex, hf, hp, jsProp]
                rfl
            | null => simp [processGemini, hex, hf, errResp] at hst
            | bool bv => simp [processGemini, hex, hf, errResp] at hst
            | num nv => simp [processGemini, hex, hf, errResp] at hst
            | arr xs => simp [processGemini, hex, hf, errResp] at hst
            | obj fs => simp [processGemini, hex, hf, errResp] at hst

/-- Witness for C9: a present-but-empty candidate text at a concrete request. -/
theorem enhance_empty_text_rejected_success_nonempty_witness :
    (enhanceDescription (some "key") [] (geminiEnvelope "")).response =
      errResp 500 (.str "Invalid Gemini response") :=
  enhance_empty_text_rejected_success_nonempty.1 (some "key") []
    (geminiEnvelope "") rfl rfl

/-- C10: The handler performs no validation of the currentDescription field:
whenever the key is configured, it calls the provider with the prompt built by
interpolating the JavaScript string rendering of whatever value — or absence of
value — the request body carries; in particular an absent field interpolates
the literal text undefined. -/
theorem enhance_no_input_validation (apiKey : Option String)
    (body : List (String × Json)) (data : Json)
    (hkey : jsTruthyEnv apiKey = true) :
    (enhanceDescription apiKey body data).fetchCalled = true ∧
    (enhanceDescription apiKey body data).prompt =
      some (buildPrompt (renderTemplateValue (body.lookup "currentDescription"))) ∧
    (body.lookup "currentDescription" = none →
      (enhanceDescription apiKey body data).prompt = some (buildPrompt "undefined")) := by
  have h1 : enhanceDescription apiKey body data =
      { fetchCalled := true
        prompt := some (buildPrompt (renderTemplateValue (body.lookup "currentDescription")))
        response := processGemini data } := by
    simp [enhanceDescription, hkey]
  rw [h1]
  exact ⟨rfl, rfl, fun h => by rw [h]; rfl⟩

/-- Witness for C10: a request body with no currentDescription at all still
reaches the provider with the text undefined interpolated. -/
theorem enhance_no_input_validation_witness :
    (enhanceDescription (some "key") [] (geminiEnvelope "x")).fetchCalled = true ∧
    (enhanceDescription (some "key") [] (geminiEnvelope "x")).prompt =
      some (buildPrompt "undefined") :=
  ⟨(enhance_no_input_validation (some "key") [] (geminiEnvelope "x") rfl).1,
   (enhance_no_input_validation (some "key") [] (geminiEnvelope "x") rfl).2.2 rfl⟩

/-- C3 counterexample: the stripping is a global replacement, not a
prefix/suffix removal.  For the valid JSON text whose only field value is the
three-backtick string, normalising the fenced wrapping also deletes the fence
marker inside the string literal, so the fenced and unfenced parses differ. -/
theorem normalizer_fence_strip_not_prefix_only :
    parseJson "\x7b\"a\":\"```\"\x7d" = .ok (.obj [("a", .str "```")]) ∧
    parseJson (stripFence (wrapJsonFence "\x7b\"a\":\"```\"\x7d")) =
      .ok (.obj [("a", .str "")]) ∧
    Json.obj [("a", .str "")] ≠ Json.obj [("a", .str "```")] := by
  refine ⟨rfl, rfl, ?_⟩
  intro h
  injection h with h1
  injection h1 with h2 _
  injection h2 with _ h3
  injection h3 with h4
  exact absurd (congrArg String.length h4) (by decide)

/-- C3 (amended): for every candidate text t that is valid JSON and contains no
backtick character, the Normalizer applied to t wrapped in a json fence (or a
bare fence) yields the same parsed object as the Normalizer applied to the
unwrapped t, and the Normalizer applied to already-unwrapped valid JSON is the
identity on the parsed object; the stripping is the global removal of fence
markers with their trailing whitespace, not mere prefix/suffix removal. -/
theorem normalizer_fence_strip_agrees_without_backticks (t : String) (v : Json)
    (hok : parseJson t = .ok v) (hb : btick ∉ t.data) :
    parseJson (stripFence (wrapJsonFence t)) = .ok v ∧
    parseJson (stripFence (wrapPlainFence t)) = .ok v ∧
    parseJson (stripFence t) = .ok v := by
  have hcore : parseValCore ((trimWs t.data).length + 1) (trimWs t.data) = .ok (v, []) :=
    parseJsonL_ok_core hok
  obtain ⟨c0, r0, hT, hgs⟩ := parseValCore_ok_shape hcore
  have hskip : ∃ c r, skipWs t.data = c :: r := by
    cases hs : skipWs t.data with
    | cons c r => exact ⟨c, r, rfl⟩
    | nil =>
      have hnil : trimWs t.data = [] := by
        unfold trimWs
        rw [hs]
        rfl
      rw [hnil] at hT
      exact absurd hT (by simp)
  obtain ⟨c, r, hd⟩ := hskip
  have hc : wsChar c = false := dropWhile_head_false hd
  have htr : trimWs ((c :: r) ++ ['\n']) = trimWs t.data := by
    unfold trimWs
    have h1 : skipWs ((c :: r) ++ ['\n']) = (c :: r) ++ ['\n'] := by
      simp only [List.cons_append]
      simp [skipWs, List.dropWhile_cons, hc]
    rw [h1, hd]
    exact rdropWs_append_ws (by decide)
  have hwrapJ : parseJson (stripFence (wrapJsonFence t)) = .ok v := by
    show parseJsonL (stripFenceL (wrapJsonFence t).data) = .ok v
    rw [wrapJsonFence_data, stripFence_wrapJson hb hd, parseJsonL_congr htr]
    exact hok
  have hwrapP : parseJson (stripFence (wrapPlainFence t)) = .ok v := by
    show parseJsonL (stripFenceL (wrapPlainFence t).data) = .ok v
    rw [wrapPlainFence_data, stripFence_wrapPlain hb hd, parseJsonL_congr htr]
    exact hok
  refine ⟨hwrapJ, hwrapP, ?_⟩
  show parseJsonL (stripFenceL t.data) = .ok v
  rw [stripFenceL_no_fence hT (goodStart_not_btick hgs),
      parseJsonL_congr (trimWs_idem t.data)]
  exact hok

/-- Witness for the amended C3 at the concrete text of the spec scenario. -/
theorem normalizer_fence_strip_agrees_without_backticks_witness :
    parseJson "\x7b\"Issue Type\": \"Bug\"\x7d" = .ok (.obj [("Issue Type", .str "Bug")]) ∧
    btick ∉ "\x7b\"Issue Type\": \"Bug\"\x7d".data ∧
    parseJson (stripFence (wrapJsonFence "\x7b\"Issue Type\": \"Bug\"\x7d")) =
      .ok (.obj [("Issue Type", .str "Bug")]) ∧
    parseJson (stripFence "\x7b\"Issue Type\": \"Bug\"\x7d") =
      .ok (.obj [("Issue Type", .str "Bug")]) :=
  ⟨rfl, by decide,
   (normalizer_fence_strip_agrees_without_backticks "\x7b\"Issue Type\": \"Bug\"\x7d"
      (.obj [("Issue Type", .str "Bug")]) rfl (by decide)).1,
   (normalizer_fence_strip_agrees_without_backticks "\x7b\"Issue Type\": \"Bug\"\x7d"
      (.obj [("Issue Type", .str "Bug")]) rfl (by decide)).2.2⟩
